import Mathlib

/-!
Verification development for the oureum-backend ledger & pricing engine.

Shallow embedding of the TypeScript source:
* `src/models/auditModel.ts` (balance adjustment helpers `adjustRmBalance`,
  `adjustOumgBalance`, `creditRmByWallet`),
* `src/models/userModel.ts` (`ensureUserByWallet`, `ensureBalanceRows`,
  `recordPurchaseByWallet`),
* `src/models/tokenOpsModel.ts` (`buyAndMint`, `sellAndBurn`),
* `src/models/redemptionModel.ts` (`insertRedemption`, `patchRedemption`),
* `src/controllers/redemptionController.ts` (`createRedemption`),
* `src/services/priceService.ts` (`PriceService.getCurrentMyrPerGram`,
  `ozToGramWithBps`, `insertSnapshot`, `getLatestSnapshot`).

Numbers are modelled as exact rationals (`ℚ`).  JavaScript `Math.round(x)`
is `⌊x + 1/2⌋`; the idiom `+(x).toFixed(d)` is rounding to `d` decimal
places, which for the non-negative values arising here coincides with
`⌊x·10^d + 1/2⌋ / 10^d`.  Database tables are lists of rows; each SQL
statement is translated row-for-row (uniqueness constraints appear as
hypotheses, not as baked-in assumptions).  A PostgreSQL transaction
(`BEGIN … COMMIT/ROLLBACK`) is embedded by building the candidate state and
discarding it on any error raised before `COMMIT`; errors raised after
`COMMIT` (which the source can do) keep the committed state.
-/

namespace Oureum

attribute [local semireducible] Rat.add Rat.mul Rat.sub Rat.inv Rat.ofScientific

/-- JavaScript `String.prototype.toLowerCase()` on the ASCII strings this
backend handles (wallet addresses, mode flags): lowercase each character. -/
def jsToLower (s : String) : String := ⟨s.data.map Char.toLower⟩

/-- An ASCII whitespace character, as stripped by `String.prototype.trim()`. -/
def isJsSpace (c : Char) : Bool := c == ' ' || c == '\t' || c == '\n' || c == '\r'

/-- JavaScript `String.prototype.trim()`: strip whitespace from both ends. -/
def jsTrim (s : String) : String :=
  ⟨((s.data.dropWhile isJsSpace).reverse.dropWhile isJsSpace).reverse⟩

/-- Mathematical floor of a rational, computed with integer floor division
(`den` is always positive). -/
def qfloor (q : ℚ) : ℤ := Int.fdiv q.num (q.den : ℤ)

/-- JavaScript `Math.round`: floor of `q + 1/2`. -/
def jsRound (q : ℚ) : ℤ := qfloor (q + 1/2)

/-- `+(x).toFixed(d)` on the non-negative values used by the source:
round to `d` decimal places, ties away from zero. -/
def roundTo (d : ℕ) (q : ℚ) : ℚ := (jsRound (q * (10 : ℚ) ^ d) : ℚ) / (10 : ℚ) ^ d

/-- Two-decimal rounding, as in `+(x).toFixed(2)`. -/
def round2 (q : ℚ) : ℚ := roundTo 2 q

/-- Six-decimal rounding, as in `+(x).toFixed(6)`. -/
def round6 (q : ℚ) : ℚ := roundTo 6 q

/-- A lowercase hex digit or decimal digit, as matched by `[a-f0-9]`. -/
def isHexLower (c : Char) : Bool := c.isDigit || (('a' ≤ c) && (c ≤ 'f'))

/-- The wallet-address regex `/^0x[a-f0-9]{40}$/` used by the source. -/
def isValidWallet (w : String) : Bool :=
  w.data.length == 42 && w.data.take 2 == ['0', 'x'] && (w.data.drop 2).all isHexLower

/-! ## Ledger data model

Tables `users`, `rm_balances`, `oumg_balances`, `token_ops`
(migrations `001_init.sql`, `003_unique_balances_and_views.sql`). -/

/-- One row of the `users` table. -/
structure UserRow where
  id : ℕ
  wallet : String
deriving DecidableEq

/-- One row of `rm_balances` / `oumg_balances`: `user_id` plus the amount
(`balance_myr` resp. `balance_g`). -/
structure BalRow where
  user_id : ℕ
  amount : ℚ
deriving DecidableEq

/-- `op_type` of a `token_ops` row. -/
inductive OpType where
  | BUY_MINT
  | SELL_BURN
deriving DecidableEq

/-- One row of the `token_ops` operation log. -/
structure TokenOp where
  user_id : ℕ
  op_type : OpType
  grams : ℚ
  amount_myr : ℚ
  price_myr_per_g : ℚ
deriving DecidableEq

/-- The ledger database state. `nextId` models the `users.id` sequence. -/
structure Ledger where
  users : List UserRow
  nextId : ℕ
  rm : List BalRow
  oumg : List BalRow
  ops : List TokenOp
deriving DecidableEq

/-- The empty database. -/
def Ledger.empty : Ledger := ⟨[], 1, [], [], []⟩

deriving instance DecidableEq for Except

/-- `SELECT … WHERE user_id = $1 LIMIT 1` on a balance table. -/
def findBal (rows : List BalRow) (uid : ℕ) : Option BalRow :=
  rows.find? (fun r => r.user_id == uid)

/-- `INSERT INTO … (user_id, amount) VALUES ($1, 0) ON CONFLICT (user_id)
DO NOTHING` — append a zero row unless one with this `user_id` exists. -/
def insertIfAbsent (uid : ℕ) (rows : List BalRow) : List BalRow :=
  if rows.any (fun r => r.user_id == uid) then rows else rows ++ [⟨uid, 0⟩]

/-- `UPDATE … SET amount = amount + $1 WHERE user_id = $2` — bump every row
matching the key (with the unique constraint there is at most one). -/
def updateBal (uid : ℕ) (delta : ℚ) (rows : List BalRow) : List BalRow :=
  rows.map (fun r => if r.user_id == uid then { r with amount := r.amount + delta } else r)

/-- Current balance as seen through `findBal`, defaulting to 0 (used only to
state theorems; mirrors `Number(rows[0]?.balance ?? 0)` reads). -/
def balOf (rows : List BalRow) (uid : ℕ) : ℚ := ((findBal rows uid).map (·.amount)).getD 0

/-- `SELECT id FROM users WHERE wallet_address = $1` (wallets are stored
lowercased, the unique key is the exact string). -/
def findUser (users : List UserRow) (w : String) : Option UserRow :=
  users.find? (fun u => u.wallet == w)

/-- `userModel.ensureBalanceRows`: idempotently create both zero balance
rows for `user_id`. -/
def ensureBalanceRows (uid : ℕ) (s : Ledger) : Ledger :=
  { s with rm := insertIfAbsent uid s.rm, oumg := insertIfAbsent uid s.oumg }

/-- `userModel.ensureUserByWallet`: lowercase the wallet, upsert the user row
(`ON CONFLICT (wallet_address) DO UPDATE … RETURNING id` returns the existing
id), then ensure both balance rows.  Returns the user id and the new state. -/
def ensureUserByWallet (wallet : String) (s : Ledger) : ℕ × Ledger :=
  let w := jsToLower wallet
  match findUser s.users w with
  | some u => (u.id, ensureBalanceRows u.id s)
  | none =>
      let uid := s.nextId
      let s1 : Ledger := { s with users := s.users ++ [⟨uid, w⟩], nextId := uid + 1 }
      (uid, ensureBalanceRows uid s1)

/-- `auditModel.adjustRmBalance`: inside one transaction, ensure the
`rm_balances` row then apply the signed delta unconditionally and return the
new balance.  If the user id does not exist the ensure-insert violates the
foreign key and the transaction rolls back (error, state unchanged).  The
source performs no non-negativity check. -/
def adjustRmBalance (uid : ℕ) (deltaMyr : ℚ) (s : Ledger) :
    Except String ℚ × Ledger :=
  if s.users.any (fun u => u.id == uid) then
    let rm1 := insertIfAbsent uid s.rm
    match findBal rm1 uid with
    | some r => (.ok (r.amount + deltaMyr), { s with rm := updateBal uid deltaMyr rm1 })
    | none => (.error "RM balance not found", s)
  else (.error "foreign key violation", s)

/-- `auditModel.adjustOumgBalance`: the gold-gram analogue of
`adjustRmBalance`; again no non-negativity check. -/
def adjustOumgBalance (uid : ℕ) (deltaGrams : ℚ) (s : Ledger) :
    Except String ℚ × Ledger :=
  if s.users.any (fun u => u.id == uid) then
    let og1 := insertIfAbsent uid s.oumg
    match findBal og1 uid with
    | some r => (.ok (r.amount + deltaGrams), { s with oumg := updateBal uid deltaGrams og1 })
    | none => (.error "OUMG balance not found", s)
  else (.error "foreign key violation", s)

/-- `auditModel.creditRmByWallet`: validate the wallet shape, ensure the
user, then `adjustRmBalance` (any finite amount is accepted, including
negative ones). -/
def creditRmByWallet (wallet : String) (amount : ℚ) (s : Ledger) :
    Except String (ℕ × ℚ) × Ledger :=
  let w := jsTrim (jsToLower wallet)
  if isValidWallet w then
    let (uid, s1) := ensureUserByWallet w s
    match adjustRmBalance uid amount s1 with
    | (.ok nb, s2) => (.ok (uid, nb), s2)
    | (.error e, s2) => (.error e, s2)
  else (.error "Invalid wallet", s)

/-- `tokenOpsModel.buyAndMint`: one transaction that debits RM by
`grams * price`, checks the debited row for negativity (rolling back on
insufficiency), credits OUMG, inserts a `BUY_MINT` log row, commits, and
only then reads the credited OUMG row for the return value — so a missing
`oumg_balances` row raises after commit and keeps the committed state. -/
def buyAndMint (uid : ℕ) (grams price : ℚ) (s : Ledger) :
    Except String (ℚ × ℚ) × Ledger :=
  let spend := grams * price
  match findBal s.rm uid with
  | none => (.error "User RM balance missing", s)
  | some r =>
      if r.amount - spend < 0 then (.error "Insufficient RM balance", s)
      else
        let committed : Ledger :=
          { s with
            rm := updateBal uid (-spend) s.rm
            oumg := updateBal uid grams s.oumg
            ops := s.ops ++ [⟨uid, .BUY_MINT, grams, spend, price⟩] }
        match findBal s.oumg uid with
        | some g => (.ok (r.amount - spend, g.amount + grams), committed)
        | none => (.error "TypeError reading balance_g", committed)

/-- `tokenOpsModel.sellAndBurn`: one transaction that debits OUMG by `grams`,
checks the debited row for negativity (rolling back on insufficiency),
credits RM by `grams * price`, inserts a `SELL_BURN` log row, commits, and
only then reads the credited RM row for the return value. -/
def sellAndBurn (uid : ℕ) (grams price : ℚ) (s : Ledger) :
    Except String (ℚ × ℚ) × Ledger :=
  let refund := grams * price
  match findBal s.oumg uid with
  | none => (.error "User OUMG balance missing", s)
  | some g =>
      if g.amount - grams < 0 then (.error "Insufficient OUMG balance", s)
      else
        let committed : Ledger :=
          { s with
            rm := updateBal uid refund s.rm
            oumg := updateBal uid (-grams) s.oumg
            ops := s.ops ++ [⟨uid, .SELL_BURN, grams, refund, price⟩] }
        match findBal s.rm uid with
        | some r => (.ok (r.amount + refund, g.amount - grams), committed)
        | none => (.error "TypeError reading balance_myr", committed)

/-- `userModel.recordPurchaseByWallet`: validate grams and unit price, then
in one transaction ensure the user and both balance rows, check the RM
balance against `cost = grams * price` (rolling back everything, user
creation included, on insufficiency), debit RM and credit OUMG. -/
def recordPurchaseByWallet (wallet : String) (grams price : ℚ) (s : Ledger) :
    Except String Unit × Ledger :=
  if ¬ (grams > 0) then (.error "grams must be positive", s)
  else if ¬ (price > 0) then (.error "unit price must be positive", s)
  else
    let w := jsToLower wallet
    let cost := grams * price
    let (uid, s1) := ensureUserByWallet w s
    let current := balOf s1.rm uid
    if current < cost then (.error "insufficient RM credit", s)
    else (.ok (), { s1 with rm := updateBal uid (-cost) s1.rm,
                            oumg := updateBal uid grams s1.oumg })

/-! ## The exposed balance-mutating operations as a step system (spec §8). -/

/-- One exposed balance-mutating operation. -/
inductive Op where
  | ensure (wallet : String)
  | credit (wallet : String) (amount : ℚ)
  | adjustRm (uid : ℕ) (delta : ℚ)
  | adjustOumg (uid : ℕ) (delta : ℚ)
  | buy (uid : ℕ) (grams price : ℚ)
  | sell (uid : ℕ) (grams price : ℚ)
  | purchase (wallet : String) (grams price : ℚ)
deriving DecidableEq

/-- The ledger state after running one operation (errors keep the state the
operation left behind, which for rolled-back transactions is the input). -/
def applyOp (op : Op) (s : Ledger) : Ledger :=
  match op with
  | .ensure w => (ensureUserByWallet w s).2
  | .credit w a => (creditRmByWallet w a s).2
  | .adjustRm u d => (adjustRmBalance u d s).2
  | .adjustOumg u d => (adjustOumgBalance u d s).2
  | .buy u g p => (buyAndMint u g p s).2
  | .sell u g p => (sellAndBurn u g p s).2
  | .purchase w g p => (recordPurchaseByWallet w g p s).2

/-- The ledger state after a sequence of operations. -/
def applyOps (ops : List Op) (s : Ledger) : Ledger := ops.foldl (fun t op => applyOp op t) s

/-- Every balance in both tables is non-negative. -/
def NonNeg (s : Ledger) : Prop :=
  (∀ r ∈ s.rm, 0 ≤ r.amount) ∧ (∀ r ∈ s.oumg, 0 ≤ r.amount)

/-- Rows with equal `user_id` hold equal amounts: the functional content of
the `UNIQUE (user_id)` constraints of migration 003. -/
def KeyFun (rows : List BalRow) : Prop :=
  ∀ r ∈ rows, ∀ t ∈ rows, r.user_id = t.user_id → r.amount = t.amount

/-- Both balance tables satisfy `KeyFun`. -/
def BalKeys (s : Ledger) : Prop := KeyFun s.rm ∧ KeyFun s.oumg

instance (s : Ledger) : Decidable (NonNeg s) :=
  inferInstanceAs (Decidable ((∀ r ∈ s.rm, 0 ≤ r.amount) ∧ (∀ r ∈ s.oumg, 0 ≤ r.amount)))

instance (rows : List BalRow) : Decidable (KeyFun rows) :=
  inferInstanceAs (Decidable (∀ r ∈ rows, ∀ t ∈ rows, r.user_id = t.user_id → r.amount = t.amount))

instance (s : Ledger) : Decidable (BalKeys s) :=
  inferInstanceAs (Decidable (KeyFun s.rm ∧ KeyFun s.oumg))

/-- Operations whose parameters carry no negative value: the amended C2
claim proves these preserve balance non-negativity. -/
def SafeOp : Op → Prop
  | .ensure _ => True
  | .credit _ a => 0 ≤ a
  | .adjustRm _ d => 0 ≤ d
  | .adjustOumg _ d => 0 ≤ d
  | .buy _ g p => 0 ≤ g ∧ 0 ≤ p
  | .sell _ g p => 0 ≤ g ∧ 0 ≤ p
  | .purchase _ _ _ => True

/-! ## Price resolution engine (`src/services/priceService.ts`) -/

/-- Troy-ounce-to-gram constant `31.1034768`. -/
def OUNCE_TO_GRAM : ℚ := 311034768 / 10000000

/-- The pricing configuration read from the environment (`PRICE_BUY_BPS`,
`PRICE_SELL_BPS`, `PRICE_MANUAL_MYR_PER_G`, `PRICE_MODE`), modelled as an
explicit struct per spec §9. -/
structure PriceConfig where
  buyBps : ℚ
  sellBps : ℚ
  manualBase : ℚ
  mode : String
deriving DecidableEq

/-- One row of the `price_snapshots` table, per-gram prices nullable. -/
structure Snapshot where
  source : String
  effective_date : Option String
  last_updated : Option String
  bnm_myr_per_oz_buying : Option ℚ
  bnm_myr_per_oz_selling : Option ℚ
  myr_per_g_buy : Option ℚ
  myr_per_g_sell : Option ℚ
  computed_myr_per_g : ℚ
  note : Option String
deriving DecidableEq

/-- The append-only snapshot table, newest first: `insertSnapshot` is cons,
`getLatestSnapshot` (`ORDER BY created_at DESC LIMIT 1`) is `head?`. -/
def PriceDB := List Snapshot

instance : DecidableEq PriceDB := inferInstanceAs (DecidableEq (List Snapshot))

/-- `PriceService.getLatestSnapshot`. -/
def getLatestSnapshot (db : PriceDB) : Option Snapshot := db.head?

/-- A raw BNM Kijang Emas quote as returned by `fetchBnmKijangEmas`. -/
structure BnmQuote where
  effective_date : Option String
  last_updated : Option String
  myr_per_oz_buying : Option ℚ
  myr_per_oz_selling : Option ℚ
deriving DecidableEq

/-- `PriceService.ozToGramWithBps`: the user BUY price comes from the BNM
selling quote and the user SELL price from the BNM buying quote, each
divided by `OUNCE_TO_GRAM`, marked up by the per-side bps and rounded to 6
decimal places. -/
def ozToGramWithBps (cfg : PriceConfig) (ozBuying ozSelling : Option ℚ) :
    Option ℚ × Option ℚ :=
  let rawBuy := ozSelling.map (· / OUNCE_TO_GRAM)
  let rawSell := ozBuying.map (· / OUNCE_TO_GRAM)
  (rawBuy.map (fun r => round6 (r * (1 + cfg.buyBps / 10000))),
   rawSell.map (fun r => round6 (r * (1 + cfg.sellBps / 10000))))

/-- The snapshot is missing or incomplete (`!snap || buy == null || sell == null`). -/
def snapIncomplete (snap : Option Snapshot) : Bool :=
  match snap with
  | none => true
  | some sn => sn.myr_per_g_buy.isNone || sn.myr_per_g_sell.isNone

/-- The normalized record returned by `getCurrentMyrPerGram`. -/
structure PriceResult where
  buy_myr_per_g : ℚ
  sell_myr_per_g : ℚ
  spread_myr_per_g : ℚ
  spread_bps : ℤ
  source : String
  effective_date : Option String
  last_updated : Option String
deriving DecidableEq

/-- The manual-fallback snapshot synthesized from the configured base price
(tier 3 of the resolution chain). -/
def manualSnapshot (cfg : PriceConfig) : Snapshot :=
  let buy := round6 (cfg.manualBase * (1 + cfg.buyBps / 10000))
  let sell := round6 (cfg.manualBase * (1 + cfg.sellBps / 10000))
  { source := "manual"
    effective_date := none
    last_updated := none
    bnm_myr_per_oz_buying := none
    bnm_myr_per_oz_selling := none
    myr_per_g_buy := some buy
    myr_per_g_sell := some sell
    computed_myr_per_g := round6 ((buy + sell) / 2)
    note := some "fallback-manual" }

/-- `PriceService.getCurrentMyrPerGram`.  The outcome of the network call
`fetchBnmKijangEmas` is passed in as an `Except` value.  Tier 1 uses the
latest snapshot when complete; tier 2 (skipped in `manual` mode) fetches
BNM, converts and inserts a snapshot, swallowing any fetch error; tier 3
inserts the manual-fallback snapshot.  The final section computes
`spread = +(buy - sell).toFixed(6)` and
`spread_bps = sell > 0 ? Math.round((buy - sell) / sell * 10000) : 0`. -/
def getCurrentMyrPerGram (cfg : PriceConfig) (bnm : Except String BnmQuote)
    (db : PriceDB) : PriceResult × PriceDB :=
  let snap0 := getLatestSnapshot db
  let db1 : PriceDB :=
    if snapIncomplete snap0 && (jsToLower cfg.mode != "manual") then
      match bnm with
      | .ok q =>
          match ozToGramWithBps cfg q.myr_per_oz_buying q.myr_per_oz_selling with
          | (some b, some sl) =>
              ({ source := "bnm-kijang-emas"
                 effective_date := q.effective_date
                 last_updated := q.last_updated
                 bnm_myr_per_oz_buying := q.myr_per_oz_buying
                 bnm_myr_per_oz_selling := q.myr_per_oz_selling
                 myr_per_g_buy := some b
                 myr_per_g_sell := some sl
                 computed_myr_per_g := round6 ((b + sl) / 2)
                 note := none } : Snapshot) :: db
          | _ => db
      | .error _ => db
    else db
  let snap1 := getLatestSnapshot db1
  let (snap2, db2) : Snapshot × PriceDB :=
    if snapIncomplete snap1 then
      (manualSnapshot cfg, manualSnapshot cfg :: db1)
    else
      (snap1.getD (manualSnapshot cfg), db1)
  let buy := snap2.myr_per_g_buy.getD 0
  let sell := snap2.myr_per_g_sell.getD 0
  ({ buy_myr_per_g := buy
     sell_myr_per_g := sell
     spread_myr_per_g := round6 (buy - sell)
     spread_bps := if sell > 0 then jsRound ((buy - sell) / sell * 10000) else 0
     source := snap2.source
     effective_date := snap2.effective_date
     last_updated := snap2.last_updated }, db2)

/-! ## Redemption workflow (`redemptionModel.ts`, `redemptionController.ts`) -/

/-- Redemption status values. -/
inductive RStatus where
  | PENDING
  | APPROVED
  | REJECTED
  | COMPLETED
deriving DecidableEq

/-- Redemption kind (`CASH` cash payout or `GOLD` physical delivery). -/
inductive RKind where
  | CASH
  | GOLD
deriving DecidableEq

/-- One row of the `redemptions` table (audit payload kept as a string). -/
structure RedemptionRow where
  id : ℕ
  user_id : ℕ
  wallet_address : String
  kind : RKind
  grams : ℚ
  fee_bps : ℚ
  fee_myr : ℚ
  min_unit_g : Option ℚ
  payout_myr : Option ℚ
  status : RStatus
  note : Option String
  audit : Option String
deriving DecidableEq

/-- The redemption table state, with its id sequence. -/
structure RedState where
  rows : List RedemptionRow
  nextId : ℕ
deriving DecidableEq

/-- Parameters of `redemptionModel.insertRedemption`. -/
structure InsertRedemptionParams where
  user_id : ℕ
  wallet : String
  rtype : RKind
  grams : ℚ
  fee_bps : ℚ
  fee_myr : ℚ
  min_unit_g : Option ℚ
  payout_myr : Option ℚ
  audit : Option String
deriving DecidableEq

/-- `redemptionModel.insertRedemption`: insert a row with `status` hardcoded
to `'PENDING'` and `note` NULL, returning it. -/
def insertRedemption (p : InsertRedemptionParams) (st : RedState) :
    RedemptionRow × RedState :=
  let row : RedemptionRow :=
    { id := st.nextId
      user_id := p.user_id
      wallet_address := jsToLower p.wallet
      kind := p.rtype
      grams := p.grams
      fee_bps := p.fee_bps
      fee_myr := p.fee_myr
      min_unit_g := p.min_unit_g
      payout_myr := p.payout_myr
      status := .PENDING
      note := none
      audit := p.audit }
  (row, ⟨st.rows ++ [row], st.nextId + 1⟩)

/-- `redemptionModel.patchRedemption`: `UPDATE redemptions SET status = $1,
note = COALESCE($2, note), audit = COALESCE($3, audit) WHERE id = $4` — the
status is overwritten unconditionally, whatever the previous status was. -/
def patchRedemption (id : ℕ) (status : RStatus) (note : Option String)
    (audit : Option String) (st : RedState) : RedState :=
  ⟨st.rows.map (fun r =>
      if r.id == id then
        { r with status := status, note := note.orElse (fun _ => r.note),
                 audit := audit.orElse (fun _ => r.audit) }
      else r),
   st.nextId⟩

/-- Look a redemption row up by id. -/
def findRedemption (st : RedState) (id : ℕ) : Option RedemptionRow :=
  st.rows.find? (fun r => r.id == id)

/-- Redemption-controller configuration: `REDEMPTION_FEE_BPS` (default 50)
and `REDEMPTION_MIN_GOLD_BAR_G` (default 50). -/
structure RedemptionCfg where
  feeBps : ℚ
  minGoldBarG : ℚ
deriving DecidableEq

/-- `redemptionController.createRedemption`.  The outcome of
`PriceService.getCurrentMyrPerGram` is passed in as an `Except` carrying the
resolved user sell price (`p?.user_sell_myr_per_g ?? p?.sell_myr_per_g ??
p?.price_myr_per_g ?? 0` collapses to the snapshot sell price); a resolution
error is swallowed and leaves `price = 0`.  Validation: wallet regex and
`grams > 0`.  A GOLD request under the minimum bar is downgraded to CASH.
`fee_myr = +(grams * price * feeBps / 10000).toFixed(2)`;
`payout_myr = +((grams * price) - fee_myr).toFixed(2)` for CASH, NULL for
GOLD.  The row is inserted in `PENDING`. -/
def createRedemption (cfg : RedemptionCfg) (wallet : String) (grams : ℚ)
    (rtype : RKind) (priceRes : Except String ℚ) (led : Ledger) (st : RedState) :
    Except String RedemptionRow × Ledger × RedState :=
  let w := jsToLower (jsTrim wallet)
  if ¬ (isValidWallet w ∧ grams > 0) then
    (.error "wallet and positive grams are required", led, st)
  else
    let rtype1 := if rtype = .GOLD ∧ grams < cfg.minGoldBarG then .CASH else rtype
    let (uid, led1) :=
      match findUser led.users w with
      | some u => (u.id, led)
      | none => ensureUserByWallet w led
    let price := match priceRes with | .ok p => p | .error _ => 0
    let fee := round2 (grams * price * cfg.feeBps / 10000)
    let payout := if rtype1 = RKind.CASH then some (round2 (grams * price - fee)) else none
    let (row, st1) := insertRedemption
      { user_id := uid
        wallet := w
        rtype := rtype1
        grams := grams
        fee_bps := cfg.feeBps
        fee_myr := fee
        min_unit_g := if rtype1 = RKind.GOLD then some cfg.minGoldBarG else none
        payout_myr := payout
        audit := some "user redemption request" } st
    (.ok row, led1, st1)

/-! ## Concrete fixtures used by counterexamples and witnesses -/

/-- A syntactically valid, already lowercased wallet address. -/
def walletA : String := "0xaaaaaaaaaaaaaaaaaaaaaaaaaaaaaaaaaaaaaaaa"

/-- The snapshot a manual price override with buy = 520 and sell = 480
leaves as the latest row (base/reference 500). -/
def snap520 : Snapshot :=
  { source := "manual"
    effective_date := none
    last_updated := none
    bnm_myr_per_oz_buying := none
    bnm_myr_per_oz_selling := none
    myr_per_g_buy := some 520
    myr_per_g_sell := some 480
    computed_myr_per_g := 500
    note := some "manual override" }

/-- Default-flavoured pricing configuration (no markup, base 500, manual). -/
def cfgManual500 : PriceConfig := ⟨0, 0, 500, "manual"⟩

/-- A configuration whose manual base price has more than six significant
decimals after markup: base 0.001, buy markup 1 bps, non-manual mode. -/
def cfgTinyBase : PriceConfig := ⟨1, 0, 1/1000, "bnm"⟩

/-- A ledger with one user owning zeroed balance rows. -/
def oneUserLedger : Ledger := ⟨[⟨1, walletA⟩], 2, [⟨1, 0⟩], [⟨1, 0⟩], []⟩

/-- A ledger with one user holding RM 1000 and 0 grams. -/
def fundedLedger : Ledger := ⟨[⟨1, walletA⟩], 2, [⟨1, 1000⟩], [⟨1, 0⟩], []⟩

/-- Redemption-controller configuration with the source defaults
(`REDEMPTION_FEE_BPS = 50`, `REDEMPTION_MIN_GOLD_BAR_G = 50`). -/
def rcfgDefault : RedemptionCfg := ⟨50, 50⟩

/-- The empty redemption table. -/
def redEmpty : RedState := ⟨[], 1⟩

/-- Redemption table after inserting one request (id 1, `PENDING`). -/
def redOne : RedState :=
  (insertRedemption
    { user_id := 1, wallet := walletA, rtype := .CASH, grams := 1, fee_bps := 50,
      fee_myr := 0, min_unit_g := none, payout_myr := some 0, audit := none }
    redEmpty).2

/-- `redOne` after an administrative transition to `APPROVED`. -/
def redApproved : RedState := patchRedemption 1 .APPROVED none none redOne

/-- `redApproved` after a further patch back to `PENDING` — the sequence the
code accepts even though `APPROVED` is supposed to be terminal. -/
def redBack : RedState := patchRedemption 1 .PENDING none none redApproved

/-- The op sequence driving a fiat balance negative: create the user, then
apply an admin adjustment of -1 to its zero fiat balance. -/
def negSeq : List Op := [.ensure walletA, .adjustRm 1 (-1)]

/-- An op sequence within the safe fragment: create the user, credit RM
1000, then buy 1 gram at 500. -/
def safeSeq : List Op := [.ensure walletA, .credit walletA 1000, .buy 1 1 500]

/-- All-or-nothing outcome of a transactional operation: either it reports
success and the state is exactly `expected` (all writes applied), or it
reports an error and the state is exactly the input `s` (no write
applied). -/
def AtomicOutcome (res : Except String (ℚ × ℚ) × Ledger) (s expected : Ledger) : Prop :=
  (res.1.isOk = true ∧ res.2 = expected) ∨ (res.1.isOk = false ∧ res.2 = s)

/-! ## General lemmas about the table primitives -/

theorem findBal_updateBal_self (uid : ℕ) (d : ℚ) (rows : List BalRow) :
    findBal (updateBal uid d rows) uid
      = (findBal rows uid).map (fun r => { r with amount := r.amount + d }) := by
  induction rows with
  | nil => rfl
  | cons r t ih =>
    by_cases h : r.user_id = uid
    · simp [findBal, updateBal, h]
    · have hb : (r.user_id == uid) = false := by simpa using h
      simp only [findBal, updateBal, List.map_cons] at ih ⊢
      rw [if_neg (by simpa using h), List.find?_cons_of_neg _ (by simp [hb]),
        List.find?_cons_of_neg _ (by simp [hb])]
      exact ih

theorem findBal_insertIfAbsent_self (uid : ℕ) (rows : List BalRow) :
    findBal (insertIfAbsent uid rows) uid
      = some ((findBal rows uid).getD ⟨uid, 0⟩) := by
  unfold insertIfAbsent
  by_cases h : rows.any (fun r => r.user_id == uid)
  · rw [if_pos h]
    have : ∃ x ∈ rows, (fun r => r.user_id == uid) x := List.any_eq_true.mp h
    have hs : (rows.find? (fun r => r.user_id == uid)).isSome := List.find?_isSome.mpr this
    obtain ⟨f, hf⟩ := Option.isSome_iff_exists.mp hs
    simp [findBal, hf]
  · rw [if_neg h]
    have hn : rows.find? (fun r => r.user_id == uid) = none := by
      rw [List.find?_eq_none]
      intro x hx hpx
      exact h (List.any_eq_true.mpr ⟨x, hx, hpx⟩)
    simp [findBal, List.find?_append, hn]

theorem findBal_isSome_of_insertIfAbsent (uid : ℕ) (rows : List BalRow) :
    (findBal (insertIfAbsent uid rows) uid).isSome := by
  rw [findBal_insertIfAbsent_self]; rfl

theorem balOf_insertIfAbsent_self (uid : ℕ) (rows : List BalRow) :
    balOf (insertIfAbsent uid rows) uid = balOf rows uid := by
  unfold balOf
  rw [findBal_insertIfAbsent_self]
  cases h : findBal rows uid <;> simp [h]

theorem balOf_updateBal_self (uid : ℕ) (d : ℚ) (rows : List BalRow)
    (h : (findBal rows uid).isSome) :
    balOf (updateBal uid d rows) uid = balOf rows uid + d := by
  obtain ⟨f, hf⟩ := Option.isSome_iff_exists.mp h
  unfold balOf
  rw [findBal_updateBal_self, hf]
  rfl

/-- If the table is key-functional, every row matching the looked-up key
carries the amount returned by `findBal`. -/
theorem keyFun_amount_eq {rows : List BalRow} (hk : KeyFun rows) {uid : ℕ}
    {f r : BalRow} (hfind : findBal rows uid = some f) (hr : r ∈ rows)
    (huid : r.user_id = uid) : r.amount = f.amount := by
  unfold findBal at hfind
  have hfm : f ∈ rows := List.mem_of_find?_eq_some hfind
  have hfp := List.find?_some hfind
  have hfu : f.user_id = uid := by simpa using hfp
  exact hk r hr f hfm (huid.trans hfu.symm)

theorem keyFun_insertIfAbsent {rows : List BalRow} (hk : KeyFun rows) (uid : ℕ) :
    KeyFun (insertIfAbsent uid rows) := by
  unfold insertIfAbsent
  by_cases h : rows.any (fun r => r.user_id == uid)
  · rwa [if_pos h]
  · rw [if_neg h]
    intro r hr t ht he
    have habs : ∀ x ∈ rows, x.user_id ≠ uid := by
      intro x hx hxe
      exact h (List.any_eq_true.mpr ⟨x, hx, by simpa using hxe⟩)
    rcases List.mem_append.mp hr with hr1 | hr2 <;>
      rcases List.mem_append.mp ht with ht1 | ht2
    · exact hk r hr1 t ht1 he
    · exfalso
      have : t = ⟨uid, 0⟩ := by simpa using ht2
      exact habs r hr1 (by rw [he, this])
    · exfalso
      have : r = ⟨uid, 0⟩ := by simpa using hr2
      exact habs t ht1 (by rw [← he, this])
    · have h1 : r = ⟨uid, 0⟩ := by simpa using hr2
      have h2 : t = ⟨uid, 0⟩ := by simpa using ht2
      rw [h1, h2]

theorem keyFun_updateBal {rows : List BalRow} (hk : KeyFun rows) (uid : ℕ) (d : ℚ) :
    KeyFun (updateBal uid d rows) := by
  intro r hr t ht he
  obtain ⟨r0, hr0, hr0e⟩ := List.mem_map.mp hr
  obtain ⟨t0, ht0, ht0e⟩ := List.mem_map.mp ht
  have hru : r.user_id = r0.user_id := by
    by_cases h1 : r0.user_id = uid
    · rw [← hr0e, if_pos (by simpa using h1)]
    · rw [← hr0e, if_neg (by simpa using h1)]
  have htu : t.user_id = t0.user_id := by
    by_cases h2 : t0.user_id = uid
    · rw [← ht0e, if_pos (by simpa using h2)]
    · rw [← ht0e, if_neg (by simpa using h2)]
  have h00 : r0.user_id = t0.user_id := hru.symm.trans (he.trans htu)
  have hamt : r0.amount = t0.amount := hk r0 hr0 t0 ht0 h00
  by_cases h1 : r0.user_id = uid
  · have h2 : t0.user_id = uid := h00.symm.trans h1
    rw [← hr0e, ← ht0e, if_pos (by simpa using h1), if_pos (by simpa using h2)]
    show r0.amount + d = t0.amount + d
    rw [hamt]
  · have h2 : ¬ t0.user_id = uid := fun hh => h1 (h00.trans hh)
    rw [← hr0e, ← ht0e, if_neg (by simpa using h1), if_neg (by simpa using h2)]
    exact hamt

theorem nonneg_updateBal_credit {rows : List BalRow}
    (h : ∀ r ∈ rows, 0 ≤ r.amount) {d : ℚ} (hd : 0 ≤ d) (uid : ℕ) :
    ∀ r ∈ updateBal uid d rows, 0 ≤ r.amount := by
  intro r hr
  obtain ⟨r0, hr0, hr0e⟩ := List.mem_map.mp hr
  by_cases hm : r0.user_id = uid
  · rw [← hr0e, if_pos (by simpa using hm)]
    have := h r0 hr0
    dsimp only
    linarith
  · rw [← hr0e, if_neg (by simpa using hm)]
    exact h r0 hr0

theorem nonneg_updateBal_debit {rows : List BalRow}
    (h : ∀ r ∈ rows, 0 ≤ r.amount) (hk : KeyFun rows) {uid : ℕ} {d : ℚ}
    {f : BalRow} (hfind : findBal rows uid = some f) (hge : 0 ≤ f.amount + d) :
    ∀ r ∈ updateBal uid d rows, 0 ≤ r.amount := by
  intro r hr
  obtain ⟨r0, hr0, hr0e⟩ := List.mem_map.mp hr
  by_cases hm : r0.user_id = uid
  · rw [← hr0e, if_pos (by simpa using hm)]
    have hae := keyFun_amount_eq hk hfind hr0 hm
    dsimp only
    rw [hae]
    exact hge
  · rw [← hr0e, if_neg (by simpa using hm)]
    exact h r0 hr0

theorem nonneg_insertIfAbsent {rows : List BalRow}
    (h : ∀ r ∈ rows, 0 ≤ r.amount) (uid : ℕ) :
    ∀ r ∈ insertIfAbsent uid rows, 0 ≤ r.amount := by
  unfold insertIfAbsent
  by_cases hc : rows.any (fun r => r.user_id == uid)
  · rw [if_pos hc]; exact h
  · rw [if_neg hc]
    intro r hr
    rcases List.mem_append.mp hr with h1 | h2
    · exact h r h1
    · have : r = ⟨uid, 0⟩ := by simpa using h2
      rw [this]

theorem getD_amount_eq_balOf (rows : List BalRow) (uid : ℕ) :
    ((findBal rows uid).getD ⟨uid, 0⟩).amount = balOf rows uid := by
  cases h : findBal rows uid <;> simp [balOf, h]

/-! ## Structural lemmas about the ledger operations -/

theorem ensure_rm (w : String) (s : Ledger) :
    ((ensureUserByWallet w s).2).rm
      = insertIfAbsent (ensureUserByWallet w s).1 s.rm := by
  cases h : findUser s.users (jsToLower w) <;>
    simp [ensureUserByWallet, ensureBalanceRows, h]

theorem ensure_oumg (w : String) (s : Ledger) :
    ((ensureUserByWallet w s).2).oumg
      = insertIfAbsent (ensureUserByWallet w s).1 s.oumg := by
  cases h : findUser s.users (jsToLower w) <;>
    simp [ensureUserByWallet, ensureBalanceRows, h]

theorem ensure_of_found {w : String} {s : Ledger} {u : UserRow}
    (h : findUser s.users (jsToLower w) = some u) :
    ensureUserByWallet w s = (u.id, ensureBalanceRows u.id s) := by
  unfold ensureUserByWallet
  dsimp only
  rw [h]

theorem ensure_of_not_found {w : String} {s : Ledger}
    (h : findUser s.users (jsToLower w) = none) :
    ensureUserByWallet w s
      = (s.nextId, ensureBalanceRows s.nextId
          { s with users := s.users ++ [⟨s.nextId, jsToLower w⟩],
                   nextId := s.nextId + 1 }) := by
  unfold ensureUserByWallet
  dsimp only
  rw [h]

theorem ensure_user_mem (w : String) (s : Ledger) :
    ((ensureUserByWallet w s).2).users.any
      (fun u => u.id == (ensureUserByWallet w s).1) = true := by
  cases h : findUser s.users (jsToLower w) with
  | some u =>
      simp only [ensureUserByWallet, ensureBalanceRows, h]
      exact List.any_eq_true.mpr ⟨u, List.mem_of_find?_eq_some h, by simp⟩
  | none =>
      simp only [ensureUserByWallet, ensureBalanceRows, h]
      exact List.any_eq_true.mpr ⟨⟨s.nextId, jsToLower w⟩, by simp, by simp⟩

theorem adjustRm_state (uid : ℕ) (d : ℚ) (s : Ledger) :
    (adjustRmBalance uid d s).2 = s ∨
      (adjustRmBalance uid d s).2
        = { s with rm := updateBal uid d (insertIfAbsent uid s.rm) } := by
  unfold adjustRmBalance
  split
  · cases h : findBal (insertIfAbsent uid s.rm) uid <;> simp [h]
  · simp

theorem adjustOumg_state (uid : ℕ) (d : ℚ) (s : Ledger) :
    (adjustOumgBalance uid d s).2 = s ∨
      (adjustOumgBalance uid d s).2
        = { s with oumg := updateBal uid d (insertIfAbsent uid s.oumg) } := by
  unfold adjustOumgBalance
  split
  · cases h : findBal (insertIfAbsent uid s.oumg) uid <;> simp [h]
  · simp

theorem credit_state (w : String) (a : ℚ) (s : Ledger) :
    (creditRmByWallet w a s).2 = s ∨
      (creditRmByWallet w a s).2
        = (adjustRmBalance (ensureUserByWallet (jsTrim (jsToLower w)) s).1 a
            (ensureUserByWallet (jsTrim (jsToLower w)) s).2).2 := by
  unfold creditRmByWallet
  dsimp only
  by_cases hv : isValidWallet (jsTrim (jsToLower w))
  · rw [if_pos hv]
    cases hE : ensureUserByWallet (jsTrim (jsToLower w)) s with
    | mk uid s1 =>
        cases hA : adjustRmBalance uid a s1 with
        | mk res s2 => cases res <;> simp [hA]
  · rw [if_neg hv]
    simp

theorem buy_state (uid : ℕ) (g p : ℚ) (s : Ledger) :
    (buyAndMint uid g p s).2 = s ∨
      (∃ r, findBal s.rm uid = some r ∧ ¬ r.amount - g * p < 0 ∧
        (buyAndMint uid g p s).2
          = { s with rm := updateBal uid (-(g * p)) s.rm
                     oumg := updateBal uid g s.oumg
                     ops := s.ops ++ [⟨uid, .BUY_MINT, g, g * p, p⟩] }) := by
  unfold buyAndMint
  cases hf : findBal s.rm uid with
  | none => simp
  | some r =>
      by_cases hc : r.amount - g * p < 0
      · simp [hc]
      · right
        refine ⟨r, rfl, hc, ?_⟩
        cases hg : findBal s.oumg uid <;> simp [hc, hg]

theorem sell_state (uid : ℕ) (g p : ℚ) (s : Ledger) :
    (sellAndBurn uid g p s).2 = s ∨
      (∃ r, findBal s.oumg uid = some r ∧ ¬ r.amount - g < 0 ∧
        (sellAndBurn uid g p s).2
          = { s with rm := updateBal uid (g * p) s.rm
                     oumg := updateBal uid (-g) s.oumg
                     ops := s.ops ++ [⟨uid, .SELL_BURN, g, g * p, p⟩] }) := by
  unfold sellAndBurn
  cases hf : findBal s.oumg uid with
  | none => simp
  | some r =>
      by_cases hc : r.amount - g < 0
      · simp [hc]
      · right
        refine ⟨r, rfl, hc, ?_⟩
        cases hg : findBal s.rm uid <;> simp [hc, hg]

theorem purchase_state (w : String) (g p : ℚ) (s : Ledger) :
    (recordPurchaseByWallet w g p s).2 = s ∨
      (0 < g ∧ 0 < p ∧
        g * p ≤ balOf ((ensureUserByWallet (jsToLower w) s).2).rm
          (ensureUserByWallet (jsToLower w) s).1 ∧
        (recordPurchaseByWallet w g p s).2
          = { (ensureUserByWallet (jsToLower w) s).2 with
              rm := updateBal (ensureUserByWallet (jsToLower w) s).1 (-(g * p))
                ((ensureUserByWallet (jsToLower w) s).2).rm
              oumg := updateBal (ensureUserByWallet (jsToLower w) s).1 g
                ((ensureUserByWallet (jsToLower w) s).2).oumg }) := by
  unfold recordPurchaseByWallet
  by_cases hg : g > 0
  · by_cases hp : p > 0
    · by_cases hc : balOf ((ensureUserByWallet (jsToLower w) s).2).rm
        (ensureUserByWallet (jsToLower w) s).1 < g * p
      · left; simp [hg, hp, hc]
      · right
        exact ⟨hg, hp, le_of_not_lt hc, by simp [hg, hp, hc]⟩
    · left; simp [hg, hp]
  · left; simp [hg]

/-! ## Invariant preservation for the exposed operations (for claim C2) -/

theorem balKeys_ensure (w : String) {s : Ledger} (hk : BalKeys s) :
    BalKeys (ensureUserByWallet w s).2 := by
  constructor
  · rw [ensure_rm]; exact keyFun_insertIfAbsent hk.1 _
  · rw [ensure_oumg]; exact keyFun_insertIfAbsent hk.2 _

theorem nonneg_ensure (w : String) {s : Ledger} (hn : NonNeg s) :
    NonNeg (ensureUserByWallet w s).2 := by
  constructor
  · rw [ensure_rm]; exact nonneg_insertIfAbsent hn.1 _
  · rw [ensure_oumg]; exact nonneg_insertIfAbsent hn.2 _

theorem balKeys_applyOp (op : Op) {s : Ledger} (hk : BalKeys s) :
    BalKeys (applyOp op s) := by
  cases op with
  | ensure w => exact balKeys_ensure w hk
  | credit w a =>
      show BalKeys (creditRmByWallet w a s).2
      rcases credit_state w a s with h | h
      · rw [h]; exact hk
      · rw [h]
        have hk1 := balKeys_ensure (jsTrim (jsToLower w)) hk
        rcases adjustRm_state (ensureUserByWallet (jsTrim (jsToLower w)) s).1 a
            (ensureUserByWallet (jsTrim (jsToLower w)) s).2 with h2 | h2
        · rw [h2]; exact hk1
        · rw [h2]
          exact ⟨keyFun_updateBal (keyFun_insertIfAbsent hk1.1 _) _ _, hk1.2⟩
  | adjustRm u d =>
      show BalKeys (adjustRmBalance u d s).2
      rcases adjustRm_state u d s with h | h
      · rw [h]; exact hk
      · rw [h]; exact ⟨keyFun_updateBal (keyFun_insertIfAbsent hk.1 _) _ _, hk.2⟩
  | adjustOumg u d =>
      show BalKeys (adjustOumgBalance u d s).2
      rcases adjustOumg_state u d s with h | h
      · rw [h]; exact hk
      · rw [h]; exact ⟨hk.1, keyFun_updateBal (keyFun_insertIfAbsent hk.2 _) _ _⟩
  | buy u g p =>
      show BalKeys (buyAndMint u g p s).2
      rcases buy_state u g p s with h | ⟨r, _, _, h⟩
      · rw [h]; exact hk
      · rw [h]; exact ⟨keyFun_updateBal hk.1 _ _, keyFun_updateBal hk.2 _ _⟩
  | sell u g p =>
      show BalKeys (sellAndBurn u g p s).2
      rcases sell_state u g p s with h | ⟨r, _, _, h⟩
      · rw [h]; exact hk
      · rw [h]; exact ⟨keyFun_updateBal hk.1 _ _, keyFun_updateBal hk.2 _ _⟩
  | purchase w g p =>
      show BalKeys (recordPurchaseByWallet w g p s).2
      rcases purchase_state w g p s with h | ⟨_, _, _, h⟩
      · rw [h]; exact hk
      · rw [h]
        have hk1 := balKeys_ensure (jsToLower w) hk
        exact ⟨keyFun_updateBal hk1.1 _ _, keyFun_updateBal hk1.2 _ _⟩

theorem nonneg_applyOp (op : Op) {s : Ledger} (hk : BalKeys s) (hn : NonNeg s)
    (hsafe : SafeOp op) : NonNeg (applyOp op s) := by
  cases op with
  | ensure w => exact nonneg_ensure w hn
  | credit w a =>
      show NonNeg (creditRmByWallet w a s).2
      rcases credit_state w a s with h | h
      · rw [h]; exact hn
      · rw [h]
        have hn1 := nonneg_ensure (jsTrim (jsToLower w)) hn
        rcases adjustRm_state (ensureUserByWallet (jsTrim (jsToLower w)) s).1 a
            (ensureUserByWallet (jsTrim (jsToLower w)) s).2 with h2 | h2
        · rw [h2]; exact hn1
        · rw [h2]
          exact ⟨nonneg_updateBal_credit (nonneg_insertIfAbsent hn1.1 _) hsafe _, hn1.2⟩
  | adjustRm u d =>
      show NonNeg (adjustRmBalance u d s).2
      rcases adjustRm_state u d s with h | h
      · rw [h]; exact hn
      · rw [h]
        exact ⟨nonneg_updateBal_credit (nonneg_insertIfAbsent hn.1 _) hsafe _, hn.2⟩
  | adjustOumg u d =>
      show NonNeg (adjustOumgBalance u d s).2
      rcases adjustOumg_state u d s with h | h
      · rw [h]; exact hn
      · rw [h]
        exact ⟨hn.1, nonneg_updateBal_credit (nonneg_insertIfAbsent hn.2 _) hsafe _⟩
  | buy u g p =>
      show NonNeg (buyAndMint u g p s).2
      rcases buy_state u g p s with h | ⟨r, hf, hc, h⟩
      · rw [h]; exact hn
      · rw [h]
        refine ⟨nonneg_updateBal_debit hn.1 hk.1 hf (by linarith [not_lt.mp hc]) , ?_⟩
        exact nonneg_updateBal_credit hn.2 hsafe.1 _
  | sell u g p =>
      show NonNeg (sellAndBurn u g p s).2
      rcases sell_state u g p s with h | ⟨r, hf, hc, h⟩
      · rw [h]; exact hn
      · rw [h]
        refine ⟨nonneg_updateBal_credit hn.1 (mul_nonneg hsafe.1 hsafe.2) _, ?_⟩
        exact nonneg_updateBal_debit hn.2 hk.2 hf (by linarith [not_lt.mp hc])
  | purchase w g p =>
      show NonNeg (recordPurchaseByWallet w g p s).2
      rcases purchase_state w g p s with h | ⟨hg, hp, hc, h⟩
      · rw [h]; exact hn
      · rw [h]
        have hn1 := nonneg_ensure (jsToLower w) hn
        have hk1 := balKeys_ensure (jsToLower w) hk
        set uid := (ensureUserByWallet (jsToLower w) s).1 with huid
        have hfind : findBal ((ensureUserByWallet (jsToLower w) s).2).rm uid
            = some ((findBal s.rm uid).getD ⟨uid, 0⟩) := by
          rw [ensure_rm, findBal_insertIfAbsent_self]
        have hbal : ((findBal s.rm uid).getD ⟨uid, 0⟩).amount
            = balOf ((ensureUserByWallet (jsToLower w) s).2).rm uid := by
          rw [ensure_rm, balOf_insertIfAbsent_self, getD_amount_eq_balOf]
        refine ⟨nonneg_updateBal_debit hn1.1 hk1.1 hfind (by rw [hbal]; linarith), ?_⟩
        exact nonneg_updateBal_credit hn1.2 (le_of_lt hg) _

theorem nonneg_applyOps (ops : List Op) {s : Ledger} (hk : BalKeys s)
    (hn : NonNeg s) (hsafe : ∀ op ∈ ops, SafeOp op) :
    BalKeys (applyOps ops s) ∧ NonNeg (applyOps ops s) := by
  induction ops generalizing s with
  | nil => exact ⟨hk, hn⟩
  | cons op rest ih =>
      have h1 := balKeys_applyOp op hk
      have h2 := nonneg_applyOp op hk hn (hsafe op (by simp))
      exact ih h1 h2 (fun o ho => hsafe o (by simp [ho]))

/-! ## Counting and lookup lemmas (for claims C5 and C7) -/

theorem findRedemption_patch (id : ℕ) (status : RStatus) (note audit : Option String)
    (st : RedState) :
    findRedemption (patchRedemption id status note audit st) id
      = (findRedemption st id).map (fun r =>
          { r with status := status, note := note.orElse (fun _ => r.note),
                   audit := audit.orElse (fun _ => r.audit) }) := by
  show (st.rows.map _).find? _ = (st.rows.find? _).map _
  induction st.rows with
  | nil => rfl
  | cons r t ih =>
    by_cases h : r.id = id
    · simp [h]
    · have hb : (r.id == id) = false := by simpa using h
      rw [List.map_cons, if_neg (by simpa using h),
        List.find?_cons_of_neg _ (by simp [hb]), List.find?_cons_of_neg _ (by simp [hb])]
      exact ih

theorem countP_eq_one_of_pairwise {α : Type} {p : α → Bool} {l : List α}
    (hl : l.Pairwise (fun a b => ¬(p a = true ∧ p b = true)))
    {a : α} (ha : a ∈ l) (hpa : p a = true) : l.countP p = 1 := by
  induction l with
  | nil => cases ha
  | cons b t ih =>
      have hb := (List.pairwise_cons.mp hl).1
      have ht := (List.pairwise_cons.mp hl).2
      rcases List.mem_cons.mp ha with h1 | h2
      · subst h1
        have hz : t.countP p = 0 := List.countP_eq_zero.mpr
          (fun x hx hpx => hb x hx ⟨hpa, hpx⟩)
        rw [List.countP_cons, hz, if_pos hpa]
      · have hpb : ¬ p b = true := fun hpb => hb a h2 ⟨hpb, hpa⟩
        rw [List.countP_cons, ih ht h2, if_neg hpb]

theorem pairwise_insertIfAbsent (rows : List BalRow) (uid : ℕ)
    (hp : rows.Pairwise (fun a b => a.user_id ≠ b.user_id)) :
    (insertIfAbsent uid rows).Pairwise (fun a b => a.user_id ≠ b.user_id) := by
  unfold insertIfAbsent
  by_cases h : rows.any (fun r => r.user_id == uid)
  · rwa [if_pos h]
  · rw [if_neg h]
    rw [List.pairwise_append]
    refine ⟨hp, List.pairwise_singleton _ _, ?_⟩
    intro x hx y hy
    have hy0 : y = (⟨uid, 0⟩ : BalRow) := by simpa using hy
    intro he
    exact h (List.any_eq_true.mpr ⟨x, hx, by simp [he, hy0]⟩)

theorem countP_insertIfAbsent (rows : List BalRow) (uid : ℕ)
    (hp : rows.Pairwise (fun a b => a.user_id ≠ b.user_id)) :
    (insertIfAbsent uid rows).countP (fun r => r.user_id == uid) = 1 := by
  unfold insertIfAbsent
  by_cases h : rows.any (fun r => r.user_id == uid)
  · rw [if_pos h]
    obtain ⟨x, hx, hpx⟩ := List.any_eq_true.mp h
    refine countP_eq_one_of_pairwise (hp.imp ?_) hx hpx
    intro a b hne ⟨hpa, hpb⟩
    exact hne ((by simpa using hpa : a.user_id = uid).trans
      (by simpa using hpb : b.user_id = uid).symm)
  · rw [if_neg h, List.countP_append]
    have hz : rows.countP (fun r => r.user_id == uid) = 0 := List.countP_eq_zero.mpr
      (fun x hx hpx => h (List.any_eq_true.mpr ⟨x, hx, hpx⟩))
    rw [hz]
    simp [List.countP_cons]

/-! ## Claim theorems -/

/-- C1 (counterexample): at the claim's own concrete scenario — latest
snapshot from a manual override with buy 520, sell 480, base 500 —
`getCurrentMyrPerGram` reports `spread = 40` but `spread_bps = 833`
(`round(40 / 480 * 10000)`, the sell price as denominator), not the
`round(40 / 500 * 10000) = 800` (≈ 80 as printed in the spec) demanded by
the claim's `spread / base` formula. -/
theorem c1_counterexample :
    (getCurrentMyrPerGram cfgManual500 (.error "unused") [snap520]).1.buy_myr_per_g = 520 ∧
    (getCurrentMyrPerGram cfgManual500 (.error "unused") [snap520]).1.sell_myr_per_g = 480 ∧
    (getCurrentMyrPerGram cfgManual500 (.error "unused") [snap520]).1.spread_myr_per_g = 40 ∧
    (getCurrentMyrPerGram cfgManual500 (.error "unused") [snap520]).1.spread_bps = 833 ∧
    jsRound ((520 - 480 : ℚ) / 500 * 10000) = 800 ∧ (833 : ℤ) ≠ 800 := by
  decide

/-- C1 (amended): whenever a complete latest snapshot exists,
`getCurrentMyrPerGram` returns `spread = round6(buy - sell)` and
`spread_bps = round((buy - sell) / sell * 10000)` when the SELL price is
positive, else 0 — the denominator and the guard are the sell price, not
the base/reference price — and inserts nothing. -/
theorem c1_spread_reporting_amended (cfg : PriceConfig)
    (bnm : Except String BnmQuote) (db : PriceDB) (sn : Snapshot) (b sl : ℚ)
    (hdb : getLatestSnapshot db = some sn)
    (hb : sn.myr_per_g_buy = some b) (hsl : sn.myr_per_g_sell = some sl) :
    (getCurrentMyrPerGram cfg bnm db).1.buy_myr_per_g = b ∧
    (getCurrentMyrPerGram cfg bnm db).1.sell_myr_per_g = sl ∧
    (getCurrentMyrPerGram cfg bnm db).1.spread_myr_per_g = round6 (b - sl) ∧
    (getCurrentMyrPerGram cfg bnm db).1.spread_bps
      = (if sl > 0 then jsRound ((b - sl) / sl * 10000) else 0) ∧
    (getCurrentMyrPerGram cfg bnm db).2 = db := by
  have hincomp : snapIncomplete (some sn) = false := by
    simp [snapIncomplete, hb, hsl]
  simp [getCurrentMyrPerGram, hincomp, hdb, hb, hsl]

/-- C1 (witness): the amended statement applied to the override scenario. -/
theorem c1_witness :
    getLatestSnapshot [snap520] = some snap520 ∧
    (getCurrentMyrPerGram cfgManual500 (.error "w") [snap520]).1.spread_bps
      = (if (480 : ℚ) > 0 then jsRound ((520 - 480) / 480 * 10000) else 0) :=
  ⟨rfl, (c1_spread_reporting_amended cfgManual500 (.error "w") [snap520]
    snap520 520 480 rfl rfl rfl).2.2.2.1⟩

/-- C3 (counterexample): on a ledger whose user 1 has zero balances,
`adjustRmBalance 1 (-5)` — a delta whose result is negative — does NOT fail
with `InsufficientBalance`: it commits, returns the new balance -5, and the
stored fiat balance becomes -5 (`adjustOumgBalance` behaves the same). -/
theorem c3_counterexample :
    (adjustRmBalance 1 (-5) oneUserLedger).1.toOption = some (-5) ∧
    balOf ((adjustRmBalance 1 (-5) oneUserLedger).2).rm 1 = -5 ∧
    balOf oneUserLedger.rm 1 + (-5) < 0 ∧
    (adjustOumgBalance 1 (-3) oneUserLedger).1.toOption = some (-3) ∧
    balOf ((adjustOumgBalance 1 (-3) oneUserLedger).2).oumg 1 = -3 := by
  decide

/-- C3 (amended): for every existing user and every signed delta,
`adjustRmBalance` and `adjustOumgBalance` commit unconditionally and return
`old + delta` — which may be negative; no `InsufficientBalance` check is
performed (they fail only when the user row is missing). -/
theorem c3_adjust_amended (uid : ℕ) (d : ℚ) (s : Ledger)
    (hu : s.users.any (fun u => u.id == uid) = true) :
    (adjustRmBalance uid d s).1 = .ok (balOf s.rm uid + d) ∧
    balOf ((adjustRmBalance uid d s).2).rm uid = balOf s.rm uid + d ∧
    (adjustOumgBalance uid d s).1 = .ok (balOf s.oumg uid + d) ∧
    balOf ((adjustOumgBalance uid d s).2).oumg uid = balOf s.oumg uid + d := by
  unfold adjustRmBalance adjustOumgBalance
  rw [if_pos hu, if_pos hu]
  dsimp only
  rw [findBal_insertIfAbsent_self, findBal_insertIfAbsent_self]
  refine ⟨?_, ?_, ?_, ?_⟩
  · simp [getD_amount_eq_balOf]
  · simp only []
    rw [balOf_updateBal_self _ _ _ (findBal_isSome_of_insertIfAbsent uid s.rm),
      balOf_insertIfAbsent_self]
  · simp [getD_amount_eq_balOf]
  · simp only []
    rw [balOf_updateBal_self _ _ _ (findBal_isSome_of_insertIfAbsent uid s.oumg),
      balOf_insertIfAbsent_self]

/-- C3 (witness): the amended statement applied to user 1 of the
one-user ledger with delta -5. -/
theorem c3_witness :
    (oneUserLedger.users.any (fun u => u.id == 1) = true) ∧
    ((adjustRmBalance 1 (-5) oneUserLedger).1 = .ok (balOf oneUserLedger.rm 1 + (-5)) ∧
     balOf ((adjustRmBalance 1 (-5) oneUserLedger).2).rm 1 = balOf oneUserLedger.rm 1 + (-5) ∧
     (adjustOumgBalance 1 (-5) oneUserLedger).1 = .ok (balOf oneUserLedger.oumg 1 + (-5)) ∧
     balOf ((adjustOumgBalance 1 (-5) oneUserLedger).2).oumg 1
       = balOf oneUserLedger.oumg 1 + (-5)) :=
  ⟨rfl, c3_adjust_amended 1 (-5) oneUserLedger rfl⟩

/-- C5 (counterexample): a reachable sequence of the exposed operations —
create (PENDING), transition to APPROVED, transition again — moves the
request OUT of the terminal state APPROVED and back to PENDING; the code
enforces no finality of terminal states. -/
theorem c5_counterexample :
    (findRedemption redOne 1).map (·.status) = some .PENDING ∧
    (findRedemption redApproved 1).map (·.status) = some .APPROVED ∧
    (findRedemption redBack 1).map (·.status) = some .PENDING := by
  decide

/-- C5 (amended): every redemption request is created in status PENDING,
and `patchRedemption` overwrites the status with the requested value
whenever the request exists — regardless of the previous status, including
the terminal ones; no transition-legality check is performed. -/
theorem c5_lifecycle_amended (p : InsertRedemptionParams) (st : RedState)
    (id : ℕ) (status : RStatus) (note audit : Option String)
    (hex : (findRedemption st id).isSome = true) :
    (insertRedemption p st).1.status = .PENDING ∧
    (findRedemption (patchRedemption id status note audit st) id).map (·.status)
      = some status := by
  refine ⟨rfl, ?_⟩
  obtain ⟨r, hr⟩ := Option.isSome_iff_exists.mp hex
  rw [findRedemption_patch, hr]
  rfl

/-- C5 (witness): the amended statement applied to the approved request,
patched to REJECTED. -/
theorem c5_witness :
    ((findRedemption redApproved 1).isSome = true) ∧
    ((insertRedemption
        { user_id := 1, wallet := walletA, rtype := .CASH, grams := 1, fee_bps := 50,
          fee_myr := 0, min_unit_g := none, payout_myr := some 0, audit := none }
        redEmpty).1.status = .PENDING ∧
     (findRedemption (patchRedemption 1 .REJECTED none none redApproved) 1).map (·.status)
       = some .REJECTED) :=
  ⟨rfl, c5_lifecycle_amended
    { user_id := 1, wallet := walletA, rtype := .CASH, grams := 1, fee_bps := 50,
      fee_myr := 0, min_unit_g := none, payout_myr := some 0, audit := none }
    redApproved 1 .REJECTED none none rfl⟩

/-- C8 (counterexample): with manual base 0.001 and a buy markup of 1 bps,
the manual-fallback snapshot's buy price is the 6-decimal rounding
`round6(0.0010001) = 0.001`, not the claim's exact
`base * (1 + buyBps/10000) = 0.0010001`. -/
theorem c8_counterexample :
    (getCurrentMyrPerGram cfgTinyBase (.error "bnm down") []).1.source = "manual" ∧
    (getCurrentMyrPerGram cfgTinyBase (.error "bnm down") []).1.buy_myr_per_g = 1/1000 ∧
    cfgTinyBase.manualBase * (1 + cfgTinyBase.buyBps / 10000) = 10001/10000000 ∧
    (1/1000 : ℚ) ≠ 10001/10000000 := by
  decide

/-- C8 (amended): whenever the cached latest snapshot is missing or
incomplete and the vendor fetch fails, `getCurrentMyrPerGram` swallows the
error, inserts a snapshot tagged "manual" with
`buy = round6(base * (1 + buyBps/10000))` and
`sell = round6(base * (1 + sellBps/10000))` (six-decimal rounding per the
numeric policy), and returns that snapshot's prices. -/
theorem c8_manual_fallback_amended (cfg : PriceConfig) (e : String) (db : PriceDB)
    (hinc : snapIncomplete (getLatestSnapshot db) = true) :
    (getCurrentMyrPerGram cfg (.error e) db).1.source = "manual" ∧
    (getCurrentMyrPerGram cfg (.error e) db).1.buy_myr_per_g
      = round6 (cfg.manualBase * (1 + cfg.buyBps / 10000)) ∧
    (getCurrentMyrPerGram cfg (.error e) db).1.sell_myr_per_g
      = round6 (cfg.manualBase * (1 + cfg.sellBps / 10000)) ∧
    (getCurrentMyrPerGram cfg (.error e) db).2 = manualSnapshot cfg :: db := by
  simp [getCurrentMyrPerGram, hinc, manualSnapshot]

/-- C8 (witness): the amended statement at the tiny-base configuration. -/
theorem c8_witness :
    (snapIncomplete (getLatestSnapshot ([] : PriceDB)) = true) ∧
    ((getCurrentMyrPerGram cfgTinyBase (.error "down") []).1.source = "manual" ∧
     (getCurrentMyrPerGram cfgTinyBase (.error "down") []).1.buy_myr_per_g
       = round6 (cfgTinyBase.manualBase * (1 + cfgTinyBase.buyBps / 10000)) ∧
     (getCurrentMyrPerGram cfgTinyBase (.error "down") []).1.sell_myr_per_g
       = round6 (cfgTinyBase.manualBase * (1 + cfgTinyBase.sellBps / 10000)) ∧
     (getCurrentMyrPerGram cfgTinyBase (.error "down") []).2
       = manualSnapshot cfgTinyBase :: []) :=
  ⟨rfl, c8_manual_fallback_amended cfgTinyBase "down" [] rfl⟩

/-- C4: buyAndMint and sellAndBurn are atomic over their three writes —
fiat update, gold update, operation-log insert — whenever the user's two
balance rows are jointly present or jointly absent (the data-model
invariant): either the call reports success and all three writes are in the
committed state, or it reports an error and the state is unchanged.  In
particular, a sell-burn of 1 gram by a user with gold balance 0 fails with
the insufficient-balance error and leaves balances and log untouched. -/
theorem c4_token_ops_atomic (uid : ℕ) (g p : ℚ) (s : Ledger)
    (hpair : (findBal s.rm uid).isSome = (findBal s.oumg uid).isSome) :
    AtomicOutcome (buyAndMint uid g p s) s
      { s with rm := updateBal uid (-(g * p)) s.rm
               oumg := updateBal uid g s.oumg
               ops := s.ops ++ [⟨uid, .BUY_MINT, g, g * p, p⟩] } ∧
    AtomicOutcome (sellAndBurn uid g p s) s
      { s with rm := updateBal uid (g * p) s.rm
               oumg := updateBal uid (-g) s.oumg
               ops := s.ops ++ [⟨uid, .SELL_BURN, g, g * p, p⟩] } ∧
    (sellAndBurn 1 1 500 fundedLedger).1 = .error "Insufficient OUMG balance" ∧
    (sellAndBurn 1 1 500 fundedLedger).2 = fundedLedger := by
  refine ⟨?_, ?_, by decide, by decide⟩
  · unfold AtomicOutcome buyAndMint
    cases hf : findBal s.rm uid with
    | none =>
        right
        simp [Except.isOk, Except.toBool]
    | some r =>
        by_cases hc : r.amount - g * p < 0
        · right; simp [hc, Except.isOk, Except.toBool]
        · left
          have hs : (findBal s.oumg uid).isSome = true := by rw [← hpair, hf]; rfl
          obtain ⟨g0, hg0⟩ := Option.isSome_iff_exists.mp hs
          simp [hc, hg0, Except.isOk, Except.toBool]
  · unfold AtomicOutcome sellAndBurn
    cases hf : findBal s.oumg uid with
    | none =>
        right
        simp [Except.isOk, Except.toBool]
    | some r =>
        by_cases hc : r.amount - g < 0
        · right; simp [hc, Except.isOk, Except.toBool]
        · left
          have hs : (findBal s.rm uid).isSome = true := by rw [hpair, hf]; rfl
          obtain ⟨r0, hr0⟩ := Option.isSome_iff_exists.mp hs
          simp [hc, hr0, Except.isOk, Except.toBool]

/-- C4 (witness): the atomicity statement applied to the funded one-user
ledger with a 1-gram operation at price 500. -/
theorem c4_witness :
    ((findBal fundedLedger.rm 1).isSome = (findBal fundedLedger.oumg 1).isSome) ∧
    (AtomicOutcome (buyAndMint 1 1 500 fundedLedger) fundedLedger
      { fundedLedger with rm := updateBal 1 (-(1 * 500)) fundedLedger.rm
                          oumg := updateBal 1 1 fundedLedger.oumg
                          ops := fundedLedger.ops ++ [⟨1, .BUY_MINT, 1, 1 * 500, 500⟩] } ∧
     AtomicOutcome (sellAndBurn 1 1 500 fundedLedger) fundedLedger
      { fundedLedger with rm := updateBal 1 (1 * 500) fundedLedger.rm
                          oumg := updateBal 1 (-1) fundedLedger.oumg
                          ops := fundedLedger.ops ++ [⟨1, .SELL_BURN, 1, 1 * 500, 500⟩] } ∧
     (sellAndBurn 1 1 500 fundedLedger).1 = .error "Insufficient OUMG balance" ∧
     (sellAndBurn 1 1 500 fundedLedger).2 = fundedLedger) :=
  ⟨rfl, c4_token_ops_atomic 1 1 500 fundedLedger rfl⟩

/-- C6 (counterexample): a GOLD request for 0.001 grams at sell price 500
with the default fee of 50 bps is downgraded to CASH (as the claim says),
but its stored fee is the two-decimal rounding round2(0.0025) = 0, not the
claim's exact grams*sellPrice*feeBps/10000 = 0.0025, and its payout is
round2(0.5 - 0) = 0.5, not the claim's 0.5 - 0.0025 = 0.4975. -/
theorem c6_counterexample :
    ((createRedemption rcfgDefault walletA (1/1000) .GOLD (.ok 500)
        Ledger.empty redEmpty).1.toOption.map (·.kind)) = some .CASH ∧
    ((createRedemption rcfgDefault walletA (1/1000) .GOLD (.ok 500)
        Ledger.empty redEmpty).1.toOption.map (·.status)) = some .PENDING ∧
    ((createRedemption rcfgDefault walletA (1/1000) .GOLD (.ok 500)
        Ledger.empty redEmpty).1.toOption.map (·.fee_myr)) = some 0 ∧
    (0 : ℚ) ≠ (1/1000) * 500 * rcfgDefault.feeBps / 10000 ∧
    ((createRedemption rcfgDefault walletA (1/1000) .GOLD (.ok 500)
        Ledger.empty redEmpty).1.toOption.map (·.payout_myr)) = some (some (1/2)) ∧
    (1/2 : ℚ) ≠ (1/1000) * 500 - (1/1000) * 500 * rcfgDefault.feeBps / 10000 := by
  decide

/-- C6 (amended): for every valid wallet and positive grams, a GOLD request
below the configured minimum bar is created as CASH instead of erroring;
the inserted row is PENDING with fee = round2(grams*sellPrice*feeBps/10000)
and, for effective kind CASH, payout = round2(grams*sellPrice - fee), while
for effective kind GOLD payout is null — the two-decimal rounding of the
source applied to the claim's formulas. -/
theorem c6_redemption_create_amended (cfg : RedemptionCfg) (wallet : String)
    (g p : ℚ) (k : RKind) (led : Ledger) (st : RedState)
    (hw : isValidWallet (jsToLower (jsTrim wallet)) = true) (hg : 0 < g) :
    ∃ row, (createRedemption cfg wallet g k (.ok p) led st).1 = .ok row ∧
      row.kind = (if k = RKind.GOLD ∧ g < cfg.minGoldBarG then RKind.CASH else k) ∧
      row.status = .PENDING ∧
      row.grams = g ∧
      row.fee_myr = round2 (g * p * cfg.feeBps / 10000) ∧
      row.payout_myr
        = (if (if k = RKind.GOLD ∧ g < cfg.minGoldBarG then RKind.CASH else k) = RKind.CASH
           then some (round2 (g * p - round2 (g * p * cfg.feeBps / 10000))) else none) ∧
      (createRedemption cfg wallet g k (.ok p) led st).2.2.rows = st.rows ++ [row] := by
  unfold createRedemption
  rw [if_neg (by push_neg; exact ⟨hw, hg⟩)]
  dsimp only
  cases hfu : findUser led.users (jsToLower (jsTrim wallet)) with
  | some u => exact ⟨_, rfl, rfl, rfl, rfl, rfl, rfl, rfl⟩
  | none => exact ⟨_, rfl, rfl, rfl, rfl, rfl, rfl, rfl⟩

/-- C6 (witness): the amended statement at the counterexample's inputs. -/
theorem c6_witness :
    (isValidWallet (jsToLower (jsTrim walletA)) = true) ∧ ((0 : ℚ) < 1/1000) ∧
    (∃ row, (createRedemption rcfgDefault walletA (1/1000) .GOLD (.ok 500)
        Ledger.empty redEmpty).1 = .ok row ∧
      row.kind = (if RKind.GOLD = RKind.GOLD ∧ (1/1000 : ℚ) < rcfgDefault.minGoldBarG
        then RKind.CASH else RKind.GOLD) ∧
      row.status = .PENDING ∧
      row.grams = 1/1000 ∧
      row.fee_myr = round2 ((1/1000) * 500 * rcfgDefault.feeBps / 10000) ∧
      row.payout_myr
        = (if (if RKind.GOLD = RKind.GOLD ∧ (1/1000 : ℚ) < rcfgDefault.minGoldBarG
              then RKind.CASH else RKind.GOLD) = RKind.CASH
           then some (round2 ((1/1000) * 500
             - round2 ((1/1000) * 500 * rcfgDefault.feeBps / 10000))) else none) ∧
      (createRedemption rcfgDefault walletA (1/1000) .GOLD (.ok 500)
        Ledger.empty redEmpty).2.2.rows = redEmpty.rows ++ [row]) :=
  ⟨by decide, by norm_num,
   c6_redemption_create_amended rcfgDefault walletA (1/1000) 500 .GOLD
     Ledger.empty redEmpty (by decide) (by norm_num)⟩

/-- C10: if price resolution fails during redemption creation, the error is
swallowed and the price treated as 0: for every valid wallet and positive
grams the request is still inserted in status PENDING with fee_myr = 0 and,
when the effective kind is CASH, payout_myr = 0 (GOLD keeps payout null);
creation does not fail. -/
theorem c10_price_error_swallowed (cfg : RedemptionCfg) (wallet : String)
    (g : ℚ) (k : RKind) (e : String) (led : Ledger) (st : RedState)
    (hw : isValidWallet (jsToLower (jsTrim wallet)) = true) (hg : 0 < g) :
    ∃ row, (createRedemption cfg wallet g k (.error e) led st).1 = .ok row ∧
      row.status = .PENDING ∧
      row.fee_myr = 0 ∧
      (row.kind = RKind.CASH → row.payout_myr = some 0) ∧
      (row.kind = RKind.GOLD → row.payout_myr = none) ∧
      (createRedemption cfg wallet g k (.error e) led st).2.2.rows
        = st.rows ++ [row] := by
  have hz : round2 (g * 0 * cfg.feeBps / 10000) = 0 := by
    norm_num
    decide
  unfold createRedemption
  rw [if_neg (by push_neg; exact ⟨hw, hg⟩)]
  dsimp only
  have hpay : round2 (g * 0 - round2 (g * 0 * cfg.feeBps / 10000)) = 0 := by
    rw [hz]
    norm_num
    decide
  cases hfu : findUser led.users (jsToLower (jsTrim wallet)) with
  | some u =>
      refine ⟨_, rfl, rfl, hz, ?_, ?_, rfl⟩
      · intro hkind
        simp only [insertRedemption] at hkind ⊢
        rw [if_pos hkind, hpay]
      · intro hkind
        simp only [insertRedemption] at hkind ⊢
        rw [if_neg (by rw [hkind]; exact fun hh => RKind.noConfusion hh)]
  | none =>
      refine ⟨_, rfl, rfl, hz, ?_, ?_, rfl⟩
      · intro hkind
        simp only [insertRedemption] at hkind ⊢
        rw [if_pos hkind, hpay]
      · intro hkind
        simp only [insertRedemption] at hkind ⊢
        rw [if_neg (by rw [hkind]; exact fun hh => RKind.noConfusion hh)]

/-- C10 (witness): the statement applied to a CASH request of 2 grams with
a failing price resolver. -/
theorem c10_witness :
    (isValidWallet (jsToLower (jsTrim walletA)) = true) ∧ ((0 : ℚ) < 2) ∧
    (∃ row, (createRedemption rcfgDefault walletA 2 .CASH (.error "price down")
        Ledger.empty redEmpty).1 = .ok row ∧
      row.status = .PENDING ∧
      row.fee_myr = 0 ∧
      (row.kind = RKind.CASH → row.payout_myr = some 0) ∧
      (row.kind = RKind.GOLD → row.payout_myr = none) ∧
      (createRedemption rcfgDefault walletA 2 .CASH (.error "price down")
        Ledger.empty redEmpty).2.2.rows = redEmpty.rows ++ [row]) :=
  ⟨by decide, by norm_num,
   c10_price_error_swallowed rcfgDefault walletA 2 .CASH "price down"
     Ledger.empty redEmpty (by decide) (by norm_num)⟩

/-- C9: for a user with both balance rows, sufficient fiat for the buy and
a non-negative initial gold balance, buyAndMint of g grams at price pBuy
followed by sellAndBurn of g grams at price pSell both succeed, leave the
gold balance unchanged, and leave the fiat balance at its pre-buy value
minus g * (pBuy - pSell); with equal prices the fiat balance returns
exactly to its pre-buy value. -/
theorem c9_buy_sell_roundtrip (uid : ℕ) (g pBuy pSell : ℚ) (s : Ledger)
    (hrm : (findBal s.rm uid).isSome = true)
    (hog : (findBal s.oumg uid).isSome = true)
    (hsuff : g * pBuy ≤ balOf s.rm uid)
    (hg0 : 0 ≤ balOf s.oumg uid)
    (hg : 0 < g) :
    (buyAndMint uid g pBuy s).1.isOk = true ∧
    (sellAndBurn uid g pSell (buyAndMint uid g pBuy s).2).1.isOk = true ∧
    balOf ((sellAndBurn uid g pSell (buyAndMint uid g pBuy s).2).2).oumg uid
      = balOf s.oumg uid ∧
    balOf ((sellAndBurn uid g pSell (buyAndMint uid g pBuy s).2).2).rm uid
      = balOf s.rm uid - g * (pBuy - pSell) ∧
    (pBuy = pSell →
      balOf ((sellAndBurn uid g pSell (buyAndMint uid g pBuy s).2).2).rm uid
        = balOf s.rm uid) := by
  obtain ⟨rb, hrb⟩ := Option.isSome_iff_exists.mp hrm
  obtain ⟨gb, hgb⟩ := Option.isSome_iff_exists.mp hog
  have hrbal : balOf s.rm uid = rb.amount := by simp [balOf, hrb]
  have hgbal : balOf s.oumg uid = gb.amount := by simp [balOf, hgb]
  have hcheck : ¬ rb.amount - g * pBuy < 0 := by
    rw [hrbal] at hsuff; linarith
  have hbuy : buyAndMint uid g pBuy s
      = (.ok (rb.amount - g * pBuy, gb.amount + g),
         { s with rm := updateBal uid (-(g * pBuy)) s.rm
                  oumg := updateBal uid g s.oumg
                  ops := s.ops ++ [⟨uid, .BUY_MINT, g, g * pBuy, pBuy⟩] }) := by
    unfold buyAndMint
    rw [hrb]
    simp [hcheck, hgb]
  rw [hbuy]
  have hfog1 : findBal (updateBal uid g s.oumg) uid
      = some { gb with amount := gb.amount + g } := by
    rw [findBal_updateBal_self, hgb]; rfl
  have hfrm1 : findBal (updateBal uid (-(g * pBuy)) s.rm) uid
      = some { rb with amount := rb.amount + -(g * pBuy) } := by
    rw [findBal_updateBal_self, hrb]; rfl
  have hcheck2 : ¬ gb.amount + g - g < 0 := by
    rw [hgbal] at hg0; linarith
  have hsell : sellAndBurn uid g pSell
      { s with rm := updateBal uid (-(g * pBuy)) s.rm
               oumg := updateBal uid g s.oumg
               ops := s.ops ++ [⟨uid, .BUY_MINT, g, g * pBuy, pBuy⟩] }
      = (.ok (rb.amount + -(g * pBuy) + g * pSell, gb.amount + g - g),
         { s with rm := updateBal uid (g * pSell) (updateBal uid (-(g * pBuy)) s.rm)
                  oumg := updateBal uid (-g) (updateBal uid g s.oumg)
                  ops := (s.ops ++ [⟨uid, .BUY_MINT, g, g * pBuy, pBuy⟩])
                    ++ [⟨uid, .SELL_BURN, g, g * pSell, pSell⟩] }) := by
    have hgbnn : (0 : ℚ) ≤ gb.amount := by rw [hgbal] at hg0; exact hg0
    unfold sellAndBurn
    rw [hfog1]
    simp [hcheck2, hfrm1, hgbnn]
  rw [hsell]
  have hogfinal : balOf (updateBal uid (-g) (updateBal uid g s.oumg)) uid
      = balOf s.oumg uid := by
    rw [balOf_updateBal_self _ _ _ (by rw [hfog1]; rfl),
      balOf_updateBal_self _ _ _ (by rw [hgb]; rfl)]
    ring
  have hrmfinal : balOf (updateBal uid (g * pSell) (updateBal uid (-(g * pBuy)) s.rm)) uid
      = balOf s.rm uid - g * (pBuy - pSell) := by
    rw [balOf_updateBal_self _ _ _ (by rw [hfrm1]; rfl),
      balOf_updateBal_self _ _ _ (by rw [hrb]; rfl)]
    ring
  refine ⟨rfl, rfl, hogfinal, hrmfinal, ?_⟩
  intro hpe
  rw [hrmfinal, hpe]
  ring

/-- C9 (witness): the roundtrip applied to the funded one-user ledger,
1 gram, buy price 500, sell price 480. -/
theorem c9_witness :
    ((findBal fundedLedger.rm 1).isSome = true) ∧
    ((findBal fundedLedger.oumg 1).isSome = true) ∧
    ((1 : ℚ) * 500 ≤ balOf fundedLedger.rm 1) ∧
    ((0 : ℚ) ≤ balOf fundedLedger.oumg 1) ∧
    ((0 : ℚ) < 1) ∧
    ((buyAndMint 1 1 500 fundedLedger).1.isOk = true ∧
     (sellAndBurn 1 1 480 (buyAndMint 1 1 500 fundedLedger).2).1.isOk = true ∧
     balOf ((sellAndBurn 1 1 480 (buyAndMint 1 1 500 fundedLedger).2).2).oumg 1
       = balOf fundedLedger.oumg 1 ∧
     balOf ((sellAndBurn 1 1 480 (buyAndMint 1 1 500 fundedLedger).2).2).rm 1
       = balOf fundedLedger.rm 1 - 1 * (500 - 480) ∧
     ((500 : ℚ) = 480 →
       balOf ((sellAndBurn 1 1 480 (buyAndMint 1 1 500 fundedLedger).2).2).rm 1
         = balOf fundedLedger.rm 1)) :=
  ⟨rfl, rfl, by decide, by decide, by norm_num,
   c9_buy_sell_roundtrip 1 1 500 480 fundedLedger rfl rfl (by decide) (by decide)
     (by norm_num)⟩

/-- C2 (counterexample): the op sequence ensure(wallet) then
adjustRm(user 1, -1), both exposed balance-mutating operations, leaves the
user's fiat balance at -1 — the non-negativity invariant does not hold for
every sequence of exposed operations. -/
theorem c2_counterexample :
    balOf (applyOps negSeq Ledger.empty).rm 1 = -1 ∧
    ¬ NonNeg (applyOps negSeq Ledger.empty) := by
  decide

/-- C2 (amended): balances stay non-negative under every sequence drawn
from the checked operations — ensure/purchase unconditionally, buy-mint and
sell-burn with non-negative grams and price, credit and the two adjust
operations with non-negative amounts — starting from any state whose
balance tables are key-functional (the UNIQUE(user_id) constraint) and
non-negative; the unrestricted adjust/credit operations with negative
deltas break the invariant (see the counterexample). -/
theorem c2_nonneg_amended (ops : List Op) (s : Ledger) (hk : BalKeys s)
    (hn : NonNeg s) (hsafe : ∀ op ∈ ops, SafeOp op) :
    NonNeg (applyOps ops s) :=
  (nonneg_applyOps ops hk hn hsafe).2

/-- C2 (witness): the safe sequence ensure, credit 1000, buy 1 gram at 500
keeps all balances non-negative starting from the empty database. -/
theorem c2_witness :
    BalKeys Ledger.empty ∧ NonNeg Ledger.empty ∧
    NonNeg (applyOps safeSeq Ledger.empty) :=
  ⟨by decide, by decide,
   c2_nonneg_amended safeSeq Ledger.empty (by decide) (by decide)
     (by intro op hop
         fin_cases hop
         · trivial
         · show (0 : ℚ) ≤ 1000; norm_num
         · exact ⟨by norm_num, by norm_num⟩)⟩

/-- C7: ensureUserByWallet is idempotent.  On a well-formed state (wallets
unique, one balance row per user, balance rows belong to existing users,
ids below the sequence counter), calling it twice with the same wallet
returns the same user id both times, and afterwards there is exactly one
user row for the normalized lowercased wallet and exactly one fiat and one
gold balance row for that user — zero-initialized when the user was newly
created. -/
theorem c7_ensure_user_idempotent (wallet : String) (s : Ledger)
    (hW : s.users.Pairwise (fun a b => a.wallet ≠ b.wallet))
    (hR : s.rm.Pairwise (fun a b => a.user_id ≠ b.user_id))
    (hG : s.oumg.Pairwise (fun a b => a.user_id ≠ b.user_id))
    (hIdU : ∀ u ∈ s.users, u.id < s.nextId)
    (hIdR : ∀ r ∈ s.rm, ∃ u ∈ s.users, r.user_id = u.id)
    (hIdG : ∀ r ∈ s.oumg, ∃ u ∈ s.users, r.user_id = u.id) :
    (ensureUserByWallet wallet (ensureUserByWallet wallet s).2).1
      = (ensureUserByWallet wallet s).1 ∧
    ((ensureUserByWallet wallet (ensureUserByWallet wallet s).2).2).users.countP
      (fun u => u.wallet == jsToLower wallet) = 1 ∧
    ((ensureUserByWallet wallet (ensureUserByWallet wallet s).2).2).rm.countP
      (fun r => r.user_id == (ensureUserByWallet wallet s).1) = 1 ∧
    ((ensureUserByWallet wallet (ensureUserByWallet wallet s).2).2).oumg.countP
      (fun r => r.user_id == (ensureUserByWallet wallet s).1) = 1 ∧
    (findUser s.users (jsToLower wallet) = none →
      balOf ((ensureUserByWallet wallet (ensureUserByWallet wallet s).2).2).rm
        (ensureUserByWallet wallet s).1 = 0 ∧
      balOf ((ensureUserByWallet wallet (ensureUserByWallet wallet s).2).2).oumg
        (ensureUserByWallet wallet s).1 = 0) := by
  have hWp : s.users.Pairwise (fun a b =>
      ¬((a.wallet == jsToLower wallet) = true ∧ (b.wallet == jsToLower wallet) = true)) := by
    refine hW.imp ?_
    intro a b hne hab
    have ha : a.wallet = jsToLower wallet := by simpa using hab.1
    have hb : b.wallet = jsToLower wallet := by simpa using hab.2
    exact hne (ha.trans hb.symm)
  cases hfu : findUser s.users (jsToLower wallet) with
  | some u =>
      have h1 : ensureUserByWallet wallet s = (u.id, ensureBalanceRows u.id s) :=
        ensure_of_found hfu
      have hfu2 : findUser (ensureBalanceRows u.id s).users (jsToLower wallet) = some u := hfu
      have h2 : ensureUserByWallet wallet (ensureBalanceRows u.id s)
          = (u.id, ensureBalanceRows u.id (ensureBalanceRows u.id s)) :=
        ensure_of_found hfu2
      rw [h1]
      dsimp only
      rw [h2]
      dsimp only [ensureBalanceRows]
      have hfu3 : s.users.find? (fun x => x.wallet == jsToLower wallet) = some u := hfu
      have hpu : (u.wallet == jsToLower wallet) = true := by
        have hh := List.find?_some hfu3
        simpa using hh
      refine ⟨rfl, ?_, ?_, ?_, ?_⟩
      · exact countP_eq_one_of_pairwise hWp (List.mem_of_find?_eq_some hfu3) hpu
      · exact countP_insertIfAbsent _ _ (pairwise_insertIfAbsent _ _ hR)
      · exact countP_insertIfAbsent _ _ (pairwise_insertIfAbsent _ _ hG)
      · intro hnone
        exact absurd hnone (Option.some_ne_none u)
  | none =>
      have hfu' : s.users.find? (fun x => x.wallet == jsToLower wallet) = none := hfu
      have hnomem : ∀ x ∈ s.users, ¬ (x.wallet == jsToLower wallet) = true :=
        List.find?_eq_none.mp hfu'
      have h1 : ensureUserByWallet wallet s
          = (s.nextId, ensureBalanceRows s.nextId
              { s with users := s.users ++ [⟨s.nextId, jsToLower wallet⟩],
                       nextId := s.nextId + 1 }) :=
        ensure_of_not_found hfu
      have hfu2 : findUser (ensureBalanceRows s.nextId
            { s with users := s.users ++ [⟨s.nextId, jsToLower wallet⟩],
                     nextId := s.nextId + 1 }).users (jsToLower wallet)
          = some (UserRow.mk s.nextId (jsToLower wallet)) := by
        show ((s.users ++ [UserRow.mk s.nextId (jsToLower wallet)]).find?
          (fun x => x.wallet == jsToLower wallet)) = _
        rw [List.find?_append, hfu']
        simp
      have h2 := ensure_of_found hfu2
      have hrmnone : findBal s.rm s.nextId = none :=
        List.find?_eq_none.mpr (fun r hr hp => by
          obtain ⟨u, hu, he⟩ := hIdR r hr
          have hru : r.user_id = s.nextId := by simpa using hp
          exact absurd (he.symm.trans hru) (Nat.ne_of_lt (hIdU u hu)))
      have hognone : findBal s.oumg s.nextId = none :=
        List.find?_eq_none.mpr (fun r hr hp => by
          obtain ⟨u, hu, he⟩ := hIdG r hr
          have hru : r.user_id = s.nextId := by simpa using hp
          exact absurd (he.symm.trans hru) (Nat.ne_of_lt (hIdU u hu)))
      rw [h1]
      dsimp only
      rw [h2]
      dsimp only [ensureBalanceRows]
      refine ⟨rfl, ?_, ?_, ?_, ?_⟩
      · rw [List.countP_append]
        have h0 : s.users.countP (fun u => u.wallet == jsToLower wallet) = 0 :=
          List.countP_eq_zero.mpr hnomem
        rw [h0]
        simp [List.countP_cons]
      · exact countP_insertIfAbsent _ _ (pairwise_insertIfAbsent _ _ hR)
      · exact countP_insertIfAbsent _ _ (pairwise_insertIfAbsent _ _ hG)
      · intro _
        constructor
        · rw [balOf_insertIfAbsent_self, balOf_insertIfAbsent_self]
          simp [balOf, hrmnone]
        · rw [balOf_insertIfAbsent_self, balOf_insertIfAbsent_self]
          simp [balOf, hognone]

/-- C7 (witness): the idempotence statement applied to the empty database
and a fresh wallet. -/
theorem c7_witness :
    (ensureUserByWallet walletA (ensureUserByWallet walletA Ledger.empty).2).1
      = (ensureUserByWallet walletA Ledger.empty).1 ∧
    ((ensureUserByWallet walletA (ensureUserByWallet walletA Ledger.empty).2).2).users.countP
      (fun u => u.wallet == jsToLower walletA) = 1 ∧
    ((ensureUserByWallet walletA (ensureUserByWallet walletA Ledger.empty).2).2).rm.countP
      (fun r => r.user_id == (ensureUserByWallet walletA Ledger.empty).1) = 1 ∧
    ((ensureUserByWallet walletA (ensureUserByWallet walletA Ledger.empty).2).2).oumg.countP
      (fun r => r.user_id == (ensureUserByWallet walletA Ledger.empty).1) = 1 ∧
    (findUser Ledger.empty.users (jsToLower walletA) = none →
      balOf ((ensureUserByWallet walletA (ensureUserByWallet walletA Ledger.empty).2).2).rm
        (ensureUserByWallet walletA Ledger.empty).1 = 0 ∧
      balOf ((ensureUserByWallet walletA (ensureUserByWallet walletA Ledger.empty).2).2).oumg
        (ensureUserByWallet walletA Ledger.empty).1 = 0) :=
  c7_ensure_user_idempotent walletA Ledger.empty (by decide) (by decide) (by decide)
    (by decide) (by decide) (by decide)

end Oureum
